import Mathlib

/-!
Verification of `file-container-analyzer` (src/main.py): a shallow embedding
of the container-inspection logic — format detection, entry listing, and
path-traversal-safe extraction — together with proofs of the specified
properties.

Modelling conventions:
* Byte strings are `List Nat`.
* The filesystem visible to the tool is a partial map `String → Option Bytes`;
  `open(path, 'wb'); write(data)` is modelled by `setFile`, which overwrites
  unconditionally.
* Exogenous I/O failures (an exception raised while reading an entry's bytes
  or writing the destination file) are recorded as Boolean fields on the
  entry/stream model, since the Python code only observes them as a caught
  `Exception`.  A write whose destination filename is empty (so that the
  destination path is the output directory itself, which `main` has created
  beforehand) always fails, mirroring `IsADirectoryError` from `open`.
* Log records relevant to the spec (`Found embedded ...`, `Extracted ...`,
  per-entry `Error extracting ...`, container-level errors) are modelled by
  `LogEvent`.
-/

/-- Byte strings. -/
abbrev Bytes := List Nat

/-- The filesystem under the output directory: a partial map from path to
contents. -/
def FS : Type := String → Option Bytes

/-- The empty filesystem. -/
def fsEmpty : FS := fun _ => none

/-- `open(path, 'wb'); write(data)`: unconditional overwrite of `path`. -/
def setFile (fs : FS) (path : String) (data : Bytes) : FS :=
  fun n => if n = path then some data else fs n

/-- Apply a sequence of writes in order (later writes win). -/
def applyWrites (fs : FS) (ws : List (String × Bytes)) : FS :=
  ws.foldl (fun acc w => setFile acc w.1 w.2) fs

/-- The last value written to `n` by the sequence `ws`, if any. -/
def lastWrite : List (String × Bytes) → String → Option Bytes
  | [], _ => none
  | w :: ws, n =>
    match lastWrite ws n with
    | some d => some d
    | none => if n = w.1 then some w.2 else none

/-- Does the string start with a path separator?  (`posixpath.join` semantics.) -/
def startsWithSlash (s : String) : Bool :=
  match s.data with
  | [] => false
  | c :: _ => c == '/'

/-- Does the string end with a path separator? -/
def endsWithSlash (s : String) : Bool :=
  match s.data.reverse with
  | [] => false
  | c :: _ => c == '/'

/-- `os.path.join(d, f)` on POSIX for two components:
if `f` is absolute it wins; otherwise it is appended to `d` with a `/`
inserted unless `d` is empty or already ends in `/`. -/
def joinPath (d f : String) : String :=
  if startsWithSlash f then f
  else if d = "" ∨ endsWithSlash d then d ++ f
  else d ++ "/" ++ f

/-- `os.path.basename(s)` on POSIX: the part of `s` after the last `/`
(empty when `s` ends in `/`). -/
def basename (s : String) : String :=
  String.mk ((s.data.reverse.takeWhile (fun c => c ≠ '/')).reverse)

/-- `s.replace('/', '_')` (line 80 of src/main.py). -/
def replaceSlash (s : String) : String :=
  String.mk (s.data.map (fun c => if c = '/' then '_' else c))

/-- A string free of path separators. -/
def noSlash (s : String) : Prop := ∀ c ∈ s.data, c ≠ '/'

/-- `p` is a path produced by joining the output directory `d` with a single
separator-free filename component: it cannot denote anything outside `d`. -/
def safeUnder (d p : String) : Prop :=
  ∃ n : String, noSlash n ∧ p = joinPath d n

/-- Log records emitted by the inspector that the specification talks about. -/
inductive LogEvent where
  /-- `Found embedded file/stream: name, Size: size` (lines 32 / 74). -/
  | found (name : String) (size : Nat)
  /-- `Extracted name to path` (lines 44 / 85). -/
  | extractedTo (name : String) (path : String)
  /-- `Error extracting name` (lines 46 / 88): per-entry failure. -/
  | entryError (name : String)
  /-- Container-level open/parse failure (lines 49 / 52 / 61 / 91). -/
  | openError
  /-- `Could not identify file type` (line 132). -/
  | unsupported
  deriving DecidableEq, Repr

/-- One entry of a ZIP archive as `zipfile` reports it: the declared name and
size from the central directory, the decompressed bytes `source.read()`
returns, and whether an exception is raised while this entry's bytes are read
or written (line 45's caught `Exception`). -/
structure ZipEntry where
  filename : String
  file_size : Nat
  content : Bytes
  ioError : Bool
  deriving DecidableEq, Repr

/-- A ZIP container: whether `zipfile.ZipFile(filepath)` opens without
raising (`BadZipFile` or otherwise), and the entries `infolist()` yields. -/
structure ZipContainer where
  openOk : Bool
  entries : List ZipEntry
  deriving DecidableEq, Repr

/-- One OLE stream as `olefile` reports it: the hierarchical name from
`listdir()`, the bytes `openstream(...).read()` returns, and whether the read
(resp. the destination write) raises. -/
structure OleStream where
  name : List String
  data : Bytes
  readError : Bool
  writeError : Bool
  deriving DecidableEq, Repr

/-- The input file as the four probes and two parsers see it:
`zipfile.is_zipfile`, `olefile.isOleFile`, the first-4-bytes fallback read
(`header`, with `headerReadError` when `open`/`read` raises), the parsed ZIP
view and the parsed OLE view (`oleOpenOk` is whether `OleFileIO(filepath)`
opens without raising). -/
structure InputFile where
  isZip : Bool
  isOle : Bool
  headerReadError : Bool
  header : Bytes
  zip : ZipContainer
  oleOpenOk : Bool
  streams : List OleStream
  deriving DecidableEq, Repr

/-- `b'PK\x03\x04'`, the ZIP local-file-header magic (line 128). -/
def zipMagic : Bytes := [80, 75, 3, 4]

/-- The three classifications `main` can reach. -/
inductive Format where
  | zip
  | ole
  | unknown
  deriving DecidableEq, Repr

/-- Format detection as `main` performs it (lines 117–132):
`zipfile.is_zipfile` first, then `olefile.isOleFile`, and only if both fail
the first 4 bytes are read and compared with the ZIP magic. -/
def detectFormat (f : InputFile) : Format :=
  if f.isZip then Format.zip
  else if f.isOle then Format.ole
  else if f.headerReadError then Format.unknown
  else if f.header = zipMagic then Format.zip
  else Format.unknown

/-- The destination path `os.path.join(output_dir, os.path.basename(filename))`
for a ZIP entry (lines 38–39). -/
def zipTargetPath (d : String) (e : ZipEntry) : String :=
  joinPath d (basename e.filename)

/-- The log records lines 32–46 emit for one ZIP entry: the listing line, then
(unless `list_only`) either the extraction line or the per-entry error. -/
def zipEntryEvents (d : String) (lo : Bool) (e : ZipEntry) : List LogEvent :=
  LogEvent.found e.filename e.file_size ::
    (if lo then []
     else if e.ioError = true ∨ basename e.filename = "" then
       [LogEvent.entryError e.filename]
     else [LogEvent.extractedTo e.filename (zipTargetPath d e)])

/-- The write lines 41–43 perform for one ZIP entry, if any: skipped under
`list_only`, failed when the read/write raises or the sanitized name is empty
(destination is the output directory itself). -/
def zipEntryWrite (d : String) (lo : Bool) (e : ZipEntry) :
    Option (String × Bytes) :=
  if lo then none
  else if e.ioError = true ∨ basename e.filename = "" then none
  else some (zipTargetPath d e, e.content)

/-- `extract_zip(filepath, output_dir, list_only)` (lines 22–54): on an open
failure return `False`; otherwise process every entry of `infolist()` in
order, logging each, and (unless `list_only`) writing each entry's bytes to
its sanitized destination, per-entry failures logged and skipped; return
`True`. -/
def extract_zip (z : ZipContainer) (d : String) (lo : Bool) (fs : FS) :
    Bool × FS × List LogEvent :=
  if !z.openOk then (false, fs, [LogEvent.openError])
  else
    (true,
     applyWrites fs (z.entries.filterMap (zipEntryWrite d lo)),
     (z.entries.map (zipEntryEvents d lo)).flatten)

/-- `'/'.join(stream_name)` (line 69). -/
def joinedName (s : OleStream) : String := String.intercalate "/" s.name

/-- The destination path
`os.path.join(output_dir, os.path.basename(full_stream_path.replace('/', '_')))`
for an OLE stream (lines 80–81). -/
def oleTargetPath (d : String) (s : OleStream) : String :=
  joinPath d (basename (replaceSlash (joinedName s)))

/-- The log records lines 67–88 emit for one OLE stream: nothing when
`stream_name` is the empty list (line 68's `if stream_name:`); the per-entry
error alone when the read raises (the listing line is never reached); else
the listing line then, unless `list_only`, the extraction line or the write
error. -/
def oleStreamEvents (d : String) (lo : Bool) (s : OleStream) : List LogEvent :=
  if s.name.isEmpty then []
  else if s.readError = true then [LogEvent.entryError (joinedName s)]
  else
    LogEvent.found (joinedName s) s.data.length ::
      (if lo then []
       else if s.writeError = true ∨ basename (replaceSlash (joinedName s)) = "" then
         [LogEvent.entryError (joinedName s)]
       else [LogEvent.extractedTo (joinedName s) (oleTargetPath d s)])

/-- The write lines 83–84 perform for one OLE stream, if any. -/
def oleStreamWrite (d : String) (lo : Bool) (s : OleStream) :
    Option (String × Bytes) :=
  if s.name.isEmpty then none
  else if s.readError = true then none
  else if lo then none
  else if s.writeError = true ∨ basename (replaceSlash (joinedName s)) = "" then none
  else some (oleTargetPath d s, s.data)

/-- `extract_ole(filepath, output_dir, list_only)` (lines 57–93): `False` if
the `isOleFile` re-check fails or `OleFileIO` raises; otherwise process every
stream `listdir()` yields in order (skipping empty names), reading each
stream's full bytes before listing it, and (unless `list_only`) writing them
to the sanitized destination; per-stream failures logged and skipped; return
`True`. -/
def extract_ole (f : InputFile) (d : String) (lo : Bool) (fs : FS) :
    Bool × FS × List LogEvent :=
  if !f.isOle then (false, fs, [LogEvent.openError])
  else if !f.oleOpenOk then (false, fs, [LogEvent.openError])
  else
    (true,
     applyWrites fs (f.streams.filterMap (oleStreamWrite d lo)),
     (f.streams.map (oleStreamEvents d lo)).flatten)

/-- The driver `process(path, outputDir, listOnly)` of the specification: the
dispatch `main` performs after validation (lines 117–132) combined with the
Boolean results of `extract_zip` / `extract_ole`; an unidentified file is the
failure case (line 132). -/
def process (f : InputFile) (d : String) (lo : Bool) (fs : FS) :
    Bool × FS × List LogEvent :=
  match detectFormat f with
  | Format.zip => extract_zip f.zip d lo fs
  | Format.ole => extract_ole f d lo fs
  | Format.unknown => (false, fs, [LogEvent.unsupported])

/-- The names of the `Found embedded ...` listing lines, in order. -/
def foundNames (log : List LogEvent) : List String :=
  log.filterMap fun ev =>
    match ev with
    | LogEvent.found n _ => some n
    | _ => none

/-! ## Helper lemmas -/

/-- The sanitized name never contains a path separator. -/
theorem basename_noSlash (s : String) : noSlash (basename s) := by
  intro c hc
  simp only [basename] at hc
  have h := List.mem_takeWhile_imp (List.mem_reverse.mp hc)
  simpa using h

/-- After `replace('/', '_')` no separator remains. -/
theorem replaceSlash_noSlash (s : String) : noSlash (replaceSlash s) := by
  intro c hc
  simp only [replaceSlash] at hc
  rcases List.mem_map.mp hc with ⟨a, _, ha⟩
  by_cases h : a = '/'
  · simp [h] at ha
    subst ha
    decide
  · simp [h] at ha
    subst ha
    exact h

/-- A name ending in `/` (ZIP directory placeholder) sanitizes to the empty
string. -/
theorem basename_of_endsWithSlash (s : String) (h : endsWithSlash s = true) :
    basename s = "" := by
  unfold endsWithSlash at h
  unfold basename
  cases hr : s.data.reverse with
  | nil => simp [hr]
  | cons c tl =>
    rw [hr] at h
    simp only at h
    have hc : c = '/' := by simpa using h
    simp [hr, hc, List.takeWhile]

/-- Every destination a ZIP entry is written to lies under the output
directory. -/
theorem zipTargetPath_safe (d : String) (e : ZipEntry) :
    safeUnder d (zipTargetPath d e) :=
  ⟨basename e.filename, basename_noSlash _, rfl⟩

/-- Every destination an OLE stream is written to lies under the output
directory. -/
theorem oleTargetPath_safe (d : String) (s : OleStream) :
    safeUnder d (oleTargetPath d s) :=
  ⟨basename (replaceSlash (joinedName s)), basename_noSlash _, rfl⟩

/-- `applyWrites` looks up as: the last write to `n` if there is one,
otherwise the original filesystem. -/
theorem applyWrites_lookup (ws : List (String × Bytes)) (fs : FS) (n : String) :
    applyWrites fs ws n =
      match lastWrite ws n with
      | some b => some b
      | none => fs n := by
  induction ws generalizing fs with
  | nil => rfl
  | cons w tl ih =>
    show applyWrites (setFile fs w.1 w.2) tl n = _
    rw [ih]
    cases h : lastWrite tl n with
    | some b => simp [lastWrite, h]
    | none =>
      simp only [lastWrite, h, setFile]
      by_cases hn : n = w.1 <;> simp [hn]

/-- Replaying the same write sequence is a no-op. -/
theorem applyWrites_idem (fs : FS) (ws : List (String × Bytes)) :
    applyWrites (applyWrites fs ws) ws = applyWrites fs ws := by
  funext n
  rw [applyWrites_lookup, applyWrites_lookup]
  cases h : lastWrite ws n <;> rfl

/-- Under `list_only` a ZIP entry produces no write. -/
theorem zipEntryWrite_listOnly (d : String) (e : ZipEntry) :
    zipEntryWrite d true e = none := rfl

/-- Under `list_only` an OLE stream produces no write. -/
theorem oleStreamWrite_listOnly (d : String) (s : OleStream) :
    oleStreamWrite d true s = none := by
  unfold oleStreamWrite
  split
  · rfl
  · split
    · rfl
    · rfl

/-- The listing line of a ZIP entry heads its event list, whatever follows. -/
theorem zipEntryEvents_foundNames (d : String) (lo : Bool) (e : ZipEntry) :
    foundNames (zipEntryEvents d lo e) = [e.filename] := by
  unfold zipEntryEvents foundNames
  split <;> simp [foundNames]
  split <;> simp

/-- `foundNames` distributes over concatenation. -/
theorem foundNames_append (l₁ l₂ : List LogEvent) :
    foundNames (l₁ ++ l₂) = foundNames l₁ ++ foundNames l₂ :=
  List.filterMap_append l₁ l₂ _

/-! ## Claim theorems -/

/-- C1: every extracted entry's destination filename is the final path
segment of the entry's name (for OLE the joined stream path first has `/`
replaced by `_`); in particular `../../etc/passwd` goes to
`outputDir/passwd`, `a/b/../../c` to `outputDir/c`, OLE
`["Root Entry","Data"]` to `outputDir/Root Entry_Data`, and every attempted
write stays under `outputDir` (a single separator-free component joined onto
it). -/
theorem c1_safe_destination (d : String) (e : ZipEntry) (s : OleStream) :
    zipTargetPath d e = joinPath d (basename e.filename) ∧
    oleTargetPath d s = joinPath d (basename (replaceSlash (joinedName s))) ∧
    safeUnder d (zipTargetPath d e) ∧
    safeUnder d (oleTargetPath d s) ∧
    (∀ lo p b, zipEntryWrite d lo e = some (p, b) → safeUnder d p) ∧
    (∀ lo p b, oleStreamWrite d lo s = some (p, b) → safeUnder d p) ∧
    zipTargetPath d ⟨"../../etc/passwd", 0, [], false⟩ = joinPath d "passwd" ∧
    zipTargetPath d ⟨"a/b/../../c", 0, [], false⟩ = joinPath d "c" ∧
    oleTargetPath d ⟨["Root Entry", "Data"], [], false, false⟩ =
      joinPath d "Root Entry_Data" := by
  refine ⟨rfl, rfl, zipTargetPath_safe d e, oleTargetPath_safe d s, ?_, ?_, ?_, ?_, ?_⟩
  · intro lo p b h
    unfold zipEntryWrite at h
    split at h
    · exact absurd h (by simp)
    · split at h
      · exact absurd h (by simp)
      · rw [Option.some.injEq, Prod.mk.injEq] at h
        rw [← h.1]
        exact zipTargetPath_safe d e
  · intro lo p b h
    unfold oleStreamWrite at h
    iterate 4
      (split at h
       · exact absurd h (by simp))
    rw [Option.some.injEq, Prod.mk.injEq] at h
    rw [← h.1]
    exact oleTargetPath_safe d s
  · show joinPath d (basename "../../etc/passwd") = joinPath d "passwd"
    congr 1
  · show joinPath d (basename "a/b/../../c") = joinPath d "c"
    congr 1
  · show joinPath d (basename (replaceSlash (joinedName ⟨["Root Entry", "Data"], [], false, false⟩))) =
      joinPath d "Root Entry_Data"
    congr 1

/-- Witness for C1 at a concrete traversal entry. -/
theorem c1_safe_destination_witness :
    zipEntryWrite "out" false ⟨"../evil", 3, [1], false⟩ = some ("out/evil", [1]) ∧
    safeUnder "out" "out/evil" :=
  ⟨by decide,
   (c1_safe_destination "out" ⟨"../evil", 3, [1], false⟩
       ⟨["a"], [], false, false⟩).2.2.2.2.1 false "out/evil" [1] (by decide)⟩

/-- C2: format detection is a deterministic function of the input applying
the probes in a fixed order — ZIP structural check, then OLE check, then
(only when both fail) the 4-byte header against the ZIP magic — and a file
satisfying several probes is classified by the earliest. -/
theorem c2_detection_order (f : InputFile) :
    (f.isZip = true → detectFormat f = Format.zip) ∧
    (f.isZip = false → f.isOle = true → detectFormat f = Format.ole) ∧
    (f.isZip = false → f.isOle = false → f.headerReadError = false →
      f.header = zipMagic → detectFormat f = Format.zip) ∧
    (f.isZip = false → f.isOle = false →
      (f.headerReadError = true ∨ f.header ≠ zipMagic) →
      detectFormat f = Format.unknown) ∧
    ((f.isZip || f.isOle) = true → ∀ h e,
      detectFormat { f with header := h, headerReadError := e } = detectFormat f) := by
  refine ⟨fun h1 => by simp [detectFormat, h1],
          fun h1 h2 => by simp [detectFormat, h1, h2],
          fun h1 h2 h3 h4 => by simp [detectFormat, h1, h2, h3, h4],
          fun h1 h2 h3 => ?_,
          fun h12 h e => ?_⟩
  · rcases h3 with h3 | h3 <;> simp [detectFormat, h1, h2, h3]
  · rcases Bool.or_eq_true_iff.mp h12 with hz | ho
    · simp [detectFormat, hz]
    · cases hz : f.isZip <;> simp [detectFormat, hz, ho]

/-- Witness for C2: a file passing both structural probes is ZIP. -/
theorem c2_detection_order_witness :
    detectFormat ⟨true, true, false, [], ⟨true, []⟩, true, []⟩ = Format.zip :=
  (c2_detection_order ⟨true, true, false, [], ⟨true, []⟩, true, []⟩).1 rfl

/-- `detectFormat` only answers `ole` when the OLE probe succeeded. -/
theorem detectFormat_ole_isOle (f : InputFile) (h : detectFormat f = Format.ole) :
    f.isOle = true := by
  unfold detectFormat at h
  by_cases h1 : f.isZip = true
  · simp [h1] at h
  · by_cases h2 : f.isOle = true
    · exact h2
    · simp [h1, h2] at h
      split at h
      · simp_all
      · split at h <;> simp_all

/-- C3: the driver returns `false` (logging an error) exactly when the format
is unknown or the container fails to open/parse, and `true` in every other
case — per-entry failures never change the result. -/
theorem c3_process_boolean (f : InputFile) (d : String) (lo : Bool) (fs : FS) :
    ((process f d lo fs).1 = false ↔
      detectFormat f = Format.unknown ∨
      (detectFormat f = Format.zip ∧ f.zip.openOk = false) ∨
      (detectFormat f = Format.ole ∧ f.oleOpenOk = false)) ∧
    ((process f d lo fs).1 = false →
      LogEvent.openError ∈ (process f d lo fs).2.2 ∨
      LogEvent.unsupported ∈ (process f d lo fs).2.2) := by
  constructor
  · unfold process
    cases hd : detectFormat f with
    | zip =>
      unfold extract_zip
      cases hz : f.zip.openOk <;> simp [hz, hd]
    | ole =>
      have hio : f.isOle = true := detectFormat_ole_isOle f hd
      unfold extract_ole
      cases ho : f.oleOpenOk <;> simp [hio, ho, hd]
    | unknown => simp [hd]
  · unfold process
    cases hd : detectFormat f with
    | zip =>
      unfold extract_zip
      cases hz : f.zip.openOk <;> simp [hz]
    | ole =>
      have hio : f.isOle = true := detectFormat_ole_isOle f hd
      unfold extract_ole
      cases ho : f.oleOpenOk <;> simp [hio, ho]
    | unknown => simp

/-- Witness for C3: an unidentifiable file makes the driver fail. -/
theorem c3_process_boolean_witness :
    (process ⟨false, false, false, [0, 1, 2, 3], ⟨true, []⟩, true, []⟩
        "out" false fsEmpty).1 = false :=
  (c3_process_boolean ⟨false, false, false, [0, 1, 2, 3], ⟨true, []⟩, true, []⟩
      "out" false fsEmpty).1.mpr (Or.inl (by decide))

/-- C4: a per-entry read/write failure is handled locally — the error is
logged, that entry is skipped (no write), and every entry before and after it
is processed as usual; the run completes successfully. -/
theorem c4_per_entry_failure
    (pre post : List ZipEntry) (e : ZipEntry)
    (f : InputFile) (spre spost : List OleStream) (s : OleStream)
    (d : String) (fs : FS)
    (he : e.ioError = true)
    (hf1 : f.isOle = true) (hf2 : f.oleOpenOk = true)
    (hstreams : f.streams = spre ++ s :: spost)
    (hn : s.name.isEmpty = false) (hr : s.readError = false)
    (hw : s.writeError = true) :
    extract_zip ⟨true, pre ++ e :: post⟩ d false fs =
      (true,
       applyWrites fs
         (pre.filterMap (zipEntryWrite d false) ++
          post.filterMap (zipEntryWrite d false)),
       (pre.map (zipEntryEvents d false)).flatten ++
         [LogEvent.found e.filename e.file_size, LogEvent.entryError e.filename] ++
         (post.map (zipEntryEvents d false)).flatten) ∧
    extract_ole f d false fs =
      (true,
       applyWrites fs
         (spre.filterMap (oleStreamWrite d false) ++
          spost.filterMap (oleStreamWrite d false)),
       (spre.map (oleStreamEvents d false)).flatten ++
         [LogEvent.found (joinedName s) s.data.length,
          LogEvent.entryError (joinedName s)] ++
         (spost.map (oleStreamEvents d false)).flatten) := by
  have hwz : zipEntryWrite d false e = none := by
    simp [zipEntryWrite, he]
  have hez : zipEntryEvents d false e =
      [LogEvent.found e.filename e.file_size, LogEvent.entryError e.filename] := by
    simp [zipEntryEvents, he]
  have hwo : oleStreamWrite d false s = none := by
    simp [oleStreamWrite, hn, hr, hw]
  have heo : oleStreamEvents d false s =
      [LogEvent.found (joinedName s) s.data.length,
       LogEvent.entryError (joinedName s)] := by
    simp [oleStreamEvents, hn, hr, hw]
  constructor
  · unfold extract_zip
    simp [List.filterMap_append, hwz, hez]
  · unfold extract_ole
    simp [hf1, hf2, hstreams, List.filterMap_append, hwo, heo]

/-- Witness for C4: a failing entry between none and one successful sibling. -/
theorem c4_per_entry_failure_witness :
    extract_zip ⟨true, [⟨"bad.txt", 2, [8], true⟩]⟩ "out" false fsEmpty =
      (true, applyWrites fsEmpty ([] ++ []),
       [] ++ [LogEvent.found "bad.txt" 2, LogEvent.entryError "bad.txt"] ++ []) ∧
    extract_ole ⟨false, true, false, [], ⟨true, []⟩, true, [⟨["A"], [9], false, true⟩]⟩
        "out" false fsEmpty =
      (true, applyWrites fsEmpty ([] ++ []),
       [] ++ [LogEvent.found "A" 1, LogEvent.entryError "A"] ++ []) :=
  c4_per_entry_failure [] [] ⟨"bad.txt", 2, [8], true⟩
    ⟨false, true, false, [], ⟨true, []⟩, true, [⟨["A"], [9], false, true⟩]⟩
    [] [] ⟨["A"], [9], false, true⟩ "out" fsEmpty rfl rfl rfl rfl rfl rfl rfl

/-- C5 counterexample: the OLE stream `["", "x"]` has an empty name
component, yet it is listed (even under `list_only`) and extracted to
`outputDir/_x` — only a stream whose whole name is empty is skipped. -/
theorem c5_contains_empty_component_counterexample :
    ("" ∈ (["", "x"] : List String)) ∧
    LogEvent.found "/x" 1 ∈
      (extract_ole ⟨false, true, false, [], ⟨true, []⟩, true,
          [⟨["", "x"], [7], false, false⟩]⟩ "out" true fsEmpty).2.2 ∧
    (extract_ole ⟨false, true, false, [], ⟨true, []⟩, true,
        [⟨["", "x"], [7], false, false⟩]⟩ "out" false fsEmpty).2.1 "out/_x" =
      some [7] := by
  refine ⟨by decide, by decide, ?_⟩
  show applyWrites fsEmpty [("out/_x", [7])] "out/_x" = some [7]
  decide

/-- C5 (amended): a stream is skipped — neither listed nor extracted — iff
its hierarchical name is the empty list (no components at all); removing such
a stream does not change the run. -/
theorem c5_empty_name_skipped
    (f : InputFile) (spre spost : List OleStream) (s : OleStream)
    (d : String) (lo : Bool) (fs : FS)
    (h : s.name = []) (hstreams : f.streams = spre ++ s :: spost) :
    oleStreamEvents d lo s = [] ∧
    oleStreamWrite d lo s = none ∧
    extract_ole f d lo fs =
      extract_ole { f with streams := spre ++ spost } d lo fs := by
  have he : oleStreamEvents d lo s = [] := by
    simp [oleStreamEvents, h]
  have hw : oleStreamWrite d lo s = none := by
    simp [oleStreamWrite, h]
  refine ⟨he, hw, ?_⟩
  unfold extract_ole
  simp [hstreams, List.filterMap_append, he, hw]

/-- Witness for C5 (amended) at a concrete container. -/
theorem c5_empty_name_skipped_witness :
    oleStreamEvents "out" false ⟨[], [3], false, false⟩ = [] ∧
    oleStreamWrite "out" false ⟨[], [3], false, false⟩ = none ∧
    extract_ole ⟨false, true, false, [], ⟨true, []⟩, true,
        [⟨[], [3], false, false⟩, ⟨["y"], [4], false, false⟩]⟩ "out" false fsEmpty =
      extract_ole ⟨false, true, false, [], ⟨true, []⟩, true,
        [⟨["y"], [4], false, false⟩]⟩ "out" false fsEmpty :=
  c5_empty_name_skipped
    ⟨false, true, false, [], ⟨true, []⟩, true,
      [⟨[], [3], false, false⟩, ⟨["y"], [4], false, false⟩]⟩
    [] [⟨["y"], [4], false, false⟩] ⟨[], [3], false, false⟩ "out" false fsEmpty
    rfl rfl

/-- The listing lines of a whole ZIP run name the entries in directory order. -/
theorem foundNames_zip_log (d : String) (lo : Bool) (l : List ZipEntry) :
    foundNames ((l.map (zipEntryEvents d lo)).flatten) = l.map ZipEntry.filename := by
  induction l with
  | nil => rfl
  | cons e tl ih => simp [foundNames_append, zipEntryEvents_foundNames, ih]

/-- C6: for a ZIP archive that opens, the listing pass yields exactly one
entry per file of the archive's own directory, with matching names in order
(hence matching count), and a `list_only` run writes nothing at all. -/
theorem c6_listing_matches_directory (z : ZipContainer) (f : InputFile)
    (d : String) (lo : Bool) (fs : FS) (hz : z.openOk = true) :
    foundNames (extract_zip z d lo fs).2.2 = z.entries.map ZipEntry.filename ∧
    (foundNames (extract_zip z d lo fs).2.2).length = z.entries.length ∧
    (process f d true fs).2.1 = fs := by
  have hlog : foundNames (extract_zip z d lo fs).2.2 = z.entries.map ZipEntry.filename := by
    unfold extract_zip
    simp only [hz, Bool.not_true]
    rw [if_neg (by simp)]
    exact foundNames_zip_log d lo z.entries
  refine ⟨hlog, by rw [hlog]; exact List.length_map .., ?_⟩
  unfold process
  cases hd : detectFormat f with
  | zip =>
    show (extract_zip f.zip d true fs).2.1 = fs
    unfold extract_zip
    split
    · rfl
    · show applyWrites fs (List.filterMap (zipEntryWrite d true) f.zip.entries) = fs
      rw [List.filterMap_eq_nil_iff.mpr fun e _ => zipEntryWrite_listOnly d e]
      rfl
  | ole =>
    show (extract_ole f d true fs).2.1 = fs
    unfold extract_ole
    split
    · rfl
    · split
      · rfl
      · show applyWrites fs (List.filterMap (oleStreamWrite d true) f.streams) = fs
        rw [List.filterMap_eq_nil_iff.mpr fun s _ => oleStreamWrite_listOnly d s]
        rfl
  | unknown => rfl

/-- Witness for C6 on the two-entry scenario archive. -/
theorem c6_listing_matches_directory_witness :
    foundNames (extract_zip
        ⟨true, [⟨"readme.txt", 11, [1], false⟩, ⟨"data/info.json", 20, [2], false⟩]⟩
        "out" false fsEmpty).2.2 = ["readme.txt", "data/info.json"] ∧
    (foundNames (extract_zip
        ⟨true, [⟨"readme.txt", 11, [1], false⟩, ⟨"data/info.json", 20, [2], false⟩]⟩
        "out" false fsEmpty).2.2).length = 2 ∧
    (process ⟨true, false, false, [],
        ⟨true, [⟨"readme.txt", 11, [1], false⟩, ⟨"data/info.json", 20, [2], false⟩]⟩,
        true, []⟩ "out" true fsEmpty).2.1 = fsEmpty :=
  c6_listing_matches_directory
    ⟨true, [⟨"readme.txt", 11, [1], false⟩, ⟨"data/info.json", 20, [2], false⟩]⟩
    ⟨true, false, false, [],
      ⟨true, [⟨"readme.txt", 11, [1], false⟩, ⟨"data/info.json", 20, [2], false⟩]⟩,
      true, []⟩
    "out" false fsEmpty rfl

/-- C7: a successful extraction writes exactly the bytes the container stores
for that entry — every performed write of a run pairs some entry's sanitized
destination with that entry's stored bytes, unchanged. -/
theorem c7_roundtrip (z : ZipContainer) (f : InputFile) (d : String) (lo : Bool)
    (e : ZipEntry) (s : OleStream) (p : String) (b : Bytes) :
    (zipEntryWrite d lo e = some (p, b) → b = e.content) ∧
    (oleStreamWrite d lo s = some (p, b) → b = s.data) ∧
    (∀ w ∈ z.entries.filterMap (zipEntryWrite d lo),
      ∃ e' ∈ z.entries, w = (zipTargetPath d e', e'.content)) ∧
    (∀ w ∈ f.streams.filterMap (oleStreamWrite d lo),
      ∃ s' ∈ f.streams, w = (oleTargetPath d s', s'.data)) := by
  refine ⟨?_, ?_, ?_, ?_⟩
  · intro h
    unfold zipEntryWrite at h
    split at h
    · exact absurd h (by simp)
    · split at h
      · exact absurd h (by simp)
      · rw [Option.some.injEq, Prod.mk.injEq] at h
        exact h.2.symm
  · intro h
    unfold oleStreamWrite at h
    iterate 4
      (split at h
       · exact absurd h (by simp))
    rw [Option.some.injEq, Prod.mk.injEq] at h
    exact h.2.symm
  · intro w hw
    rcases List.mem_filterMap.mp hw with ⟨e', he', hsome⟩
    refine ⟨e', he', ?_⟩
    unfold zipEntryWrite at hsome
    split at hsome
    · exact absurd hsome (by simp)
    · split at hsome
      · exact absurd hsome (by simp)
      · rw [Option.some.injEq] at hsome
        exact hsome.symm
  · intro w hw
    rcases List.mem_filterMap.mp hw with ⟨s', hs', hsome⟩
    refine ⟨s', hs', ?_⟩
    unfold oleStreamWrite at hsome
    iterate 4
      (split at hsome
       · exact absurd hsome (by simp))
    rw [Option.some.injEq] at hsome
    exact hsome.symm

/-- Witness for C7: the write of a concrete archive carries the stored bytes. -/
theorem c7_roundtrip_witness :
    ∃ e' ∈ [(⟨"a.txt", 2, [5, 6], false⟩ : ZipEntry)],
      (("out/a.txt", [5, 6]) : String × Bytes) =
        (zipTargetPath "out" e', e'.content) :=
  (c7_roundtrip ⟨true, [⟨"a.txt", 2, [5, 6], false⟩]⟩
      ⟨false, false, false, [], ⟨true, []⟩, false, []⟩ "out" false
      ⟨"a.txt", 2, [5, 6], false⟩ ⟨["a"], [], false, false⟩
      "out/a.txt" [5, 6]).2.2.1
    ("out/a.txt", [5, 6]) (by decide)

/-- C8: extraction is idempotent over the output directory — running the
whole driver twice into the same directory leaves exactly the filesystem a
single run leaves, because every write is an unconditional overwrite. -/
theorem c8_idempotent_extraction (f : InputFile) (d : String) (lo : Bool) (fs : FS) :
    (process f d lo ((process f d lo fs).2.1)).2.1 = (process f d lo fs).2.1 ∧
    ∀ p b, setFile fs p b p = some b := by
  constructor
  · unfold process
    cases hd : detectFormat f with
    | zip =>
      show (extract_zip f.zip d lo ((extract_zip f.zip d lo fs).2.1)).2.1 =
        (extract_zip f.zip d lo fs).2.1
      unfold extract_zip
      cases hz : f.zip.openOk <;> simp [hz, applyWrites_idem]
    | ole =>
      show (extract_ole f d lo ((extract_ole f d lo fs).2.1)).2.1 =
        (extract_ole f d lo fs).2.1
      unfold extract_ole
      cases ho : f.isOle <;> cases hk : f.oleOpenOk <;> simp [ho, hk, applyWrites_idem]
    | unknown => rfl
  · intro p b
    simp [setFile]

/-- C9: a ZIP entry whose name ends with a path separator (directory
placeholder) still appears in the listing, its sanitized filename is the
empty string so the destination is `outputDir` itself (`os.path.join` with
the empty component), the extraction attempt fails as a per-entry error with
no write performed, and the run still reports success. -/
theorem c9_directory_placeholder (z : ZipContainer) (e : ZipEntry) (d : String)
    (fs : FS) (hz : z.openOk = true) (he : e ∈ z.entries)
    (h : endsWithSlash e.filename = true) :
    basename e.filename = "" ∧
    zipTargetPath d e = joinPath d "" ∧
    LogEvent.found e.filename e.file_size ∈ (extract_zip z d false fs).2.2 ∧
    zipEntryEvents d false e =
      [LogEvent.found e.filename e.file_size, LogEvent.entryError e.filename] ∧
    zipEntryWrite d false e = none ∧
    (extract_zip z d false fs).1 = true := by
  have hb : basename e.filename = "" := basename_of_endsWithSlash _ h
  have hev : zipEntryEvents d false e =
      [LogEvent.found e.filename e.file_size, LogEvent.entryError e.filename] := by
    simp [zipEntryEvents, hb]
  refine ⟨hb, ?_, ?_, hev, ?_, ?_⟩
  · unfold zipTargetPath
    rw [hb]
  · unfold extract_zip
    rw [if_neg (by simp [hz])]
    exact List.mem_flatten.mpr
      ⟨zipEntryEvents d false e, List.mem_map_of_mem _ he, by rw [hev]; simp⟩
  · simp [zipEntryWrite, hb]
  · unfold extract_zip
    rw [if_neg (by simp [hz])]

/-- Witness for C9 on a concrete directory-placeholder entry. -/
theorem c9_directory_placeholder_witness :
    basename "docs/" = "" ∧
    zipTargetPath "out" ⟨"docs/", 0, [], false⟩ = joinPath "out" "" ∧
    LogEvent.found "docs/" 0 ∈
      (extract_zip ⟨true, [⟨"docs/", 0, [], false⟩]⟩ "out" false fsEmpty).2.2 ∧
    zipEntryEvents "out" false ⟨"docs/", 0, [], false⟩ =
      [LogEvent.found "docs/" 0, LogEvent.entryError "docs/"] ∧
    zipEntryWrite "out" false ⟨"docs/", 0, [], false⟩ = none ∧
    (extract_zip ⟨true, [⟨"docs/", 0, [], false⟩]⟩ "out" false fsEmpty).1 = true :=
  c9_directory_placeholder ⟨true, [⟨"docs/", 0, [], false⟩]⟩
    ⟨"docs/", 0, [], false⟩ "out" fsEmpty rfl (by decide) rfl

/-- C10: an OLE stream's full bytes are read before it is listed — even under
`list_only` the listing line reports exactly the byte length of the stored
data — and a stream whose read raises is omitted from the listing entirely
(only a per-entry error is logged, nothing written) while the run still
succeeds. -/
theorem c10_ole_read_before_list (f : InputFile) (d : String) (lo : Bool)
    (fs : FS) (s : OleStream)
    (h1 : f.isOle = true) (h2 : f.oleOpenOk = true) (hs : s ∈ f.streams)
    (hn : s.name.isEmpty = false) :
    (s.readError = false →
      LogEvent.found (joinedName s) s.data.length ∈ (extract_ole f d lo fs).2.2) ∧
    (s.readError = true →
      oleStreamEvents d lo s = [LogEvent.entryError (joinedName s)] ∧
      oleStreamWrite d lo s = none) ∧
    (extract_ole f d lo fs).1 = true := by
  refine ⟨?_, ?_, ?_⟩
  · intro hr
    unfold extract_ole
    rw [if_neg (by simp [h1]), if_neg (by simp [h2])]
    refine List.mem_flatten.mpr ⟨oleStreamEvents d lo s, List.mem_map_of_mem _ hs, ?_⟩
    unfold oleStreamEvents
    rw [if_neg (by simp [hn]), if_neg (by simp [hr])]
    exact List.mem_cons_self _ _
  · intro hr
    constructor
    · simp [oleStreamEvents, hn, hr]
    · simp [oleStreamWrite, hn, hr]
  · unfold extract_ole
    rw [if_neg (by simp [h1]), if_neg (by simp [h2])]

/-- Witness for C10 with one readable and one unreadable stream. -/
theorem c10_ole_read_before_list_witness :
    LogEvent.found "ok" 2 ∈
      (extract_ole ⟨false, true, false, [], ⟨true, []⟩, true,
          [⟨["ok"], [1, 2], false, false⟩, ⟨["bad"], [], true, false⟩]⟩
        "out" true fsEmpty).2.2 ∧
    (oleStreamEvents "out" true ⟨["bad"], [], true, false⟩ =
        [LogEvent.entryError "bad"] ∧
      oleStreamWrite "out" true ⟨["bad"], [], true, false⟩ = none) ∧
    (extract_ole ⟨false, true, false, [], ⟨true, []⟩, true,
        [⟨["ok"], [1, 2], false, false⟩, ⟨["bad"], [], true, false⟩]⟩
      "out" true fsEmpty).1 = true := by
  refine ⟨?_, ?_, ?_⟩
  · exact (c10_ole_read_before_list
      ⟨false, true, false, [], ⟨true, []⟩, true,
        [⟨["ok"], [1, 2], false, false⟩, ⟨["bad"], [], true, false⟩]⟩
      "out" true fsEmpty ⟨["ok"], [1, 2], false, false⟩
      rfl rfl (by decide) rfl).1 rfl
  · exact (c10_ole_read_before_list
      ⟨false, true, false, [], ⟨true, []⟩, true,
        [⟨["ok"], [1, 2], false, false⟩, ⟨["bad"], [], true, false⟩]⟩
      "out" true fsEmpty ⟨["bad"], [], true, false⟩
      rfl rfl (by decide) rfl).2.1 rfl
  · exact (c10_ole_read_before_list
      ⟨false, true, false, [], ⟨true, []⟩, true,
        [⟨["ok"], [1, 2], false, false⟩, ⟨["bad"], [], true, false⟩]⟩
      "out" true fsEmpty ⟨["ok"], [1, 2], false, false⟩
      rfl rfl (by decide) rfl).2.2
